import Mathlib

/-!
Verification development for the conversation-turn latency measurement
engine of the avytrweb repository.

The embedded code comes from the repository sources:

* `src/unnamed/part_004` — the `ConversationLatencyVAD` component whose
  local voice-activity detector (the `loop` closure, lines 114–175) and
  remote correlator (the `rloop` closure inside `attachRemoteVAD`,
  lines 196–261) carry the algorithmic content: EMA smoothing, a
  silence-debounce timer, a minimum-speak gate, a refractory gate, an
  end-of-speech (EoS) marker queue, fresh-marker pairing and latency
  statistics.
* `src/components/livekit/conversation-latency-vad.tsx` — two further
  revisions of the same component.  The first revision's detector
  (lines 75–108) is embedded separately because its effect cleanup
  (lines 104–107) cancels only the animation frame and not the armed
  silence timer.

Timestamps (`Date.now()` values) are embedded as `ℕ`; JavaScript numeric
subtraction and comparison are carried out in `ℤ` so that negative
differences behave exactly as in the source.  Energy levels and the
exponential moving average are embedded as `ℚ`.  Timer callbacks are
modelled by explicit events: `setTimeout(cb, d)` at time `t` arms a
timer with deadline `t + d`, `clearTimeout` disarms it, and a
`timerFire` event has an effect only when an armed timer with that
deadline exists — which is precisely the single-threaded cooperative
semantics of the browser runtime.
-/

namespace Avytrweb

/-! ### Voice-activity detector, `src/unnamed/part_004` local `loop`

Tunables of the local detector (part_004 lines 114–119 and the
`conversation-latency-vad.tsx` agent-state revision lines 321–326). -/

structure VadConfig where
  alpha : ℚ
  speakThr : ℚ
  minSpeakMs : ℕ
  silenceMs : ℕ
  refractMs : ℕ
  deriving Repr, DecidableEq

/-- Constants of the part_004 local detector: ALPHA = 0.2, SPEAK_THR = 3.0,
MIN_SPEAK_MS = 700, SILENCE_MS = 450, EoS_REFRACT_MS = 1500. -/
def cfgPart004 : VadConfig :=
  { alpha := 1/5, speakThr := 3, minSpeakMs := 700, silenceMs := 450, refractMs := 1500 }

/-- Constants of the agent-state revision in conversation-latency-vad.tsx:
ALPHA = 0.2, SPEAK_THR = 3.0, MIN_SPEAK_MS = 600, SILENCE_MS = 400,
EoS_REFRACT_MS = 1200. -/
def cfgAgentRev : VadConfig :=
  { alpha := 1/5, speakThr := 3, minSpeakMs := 600, silenceMs := 400, refractMs := 1200 }

/-- State of the part_004 local detector.  `ema` is the closure variable
`ema`; `isSpeaking` is `isUserSpeakingRef.current`; `speakStart` is
`speakStartRef.current`; `lastEos` is `lastEosRef.current`; `timer` is
the deadline of the timeout stored in `localSilenceTimerRef.current`
(`none` when the ref is null); `destroyed` records that the effect
cleanup ran; `emitted` collects the accepted EoS timestamps in emission
order (the `eosQueueRef.current.push(now)` calls). -/
structure VadState where
  ema : ℚ
  isSpeaking : Bool
  speakStart : Option ℕ
  lastEos : Option ℕ
  timer : Option ℕ
  destroyed : Bool
  emitted : List ℕ
  deriving Repr, DecidableEq

def vadInit : VadState :=
  { ema := 0, isSpeaking := false, speakStart := none, lastEos := none,
    timer := none, destroyed := false, emitted := [] }

/-- Events driving a detector: an animation-frame callback observing a
loudness level at time `t`, the silence-debounce timeout firing at its
deadline `t`, and the React effect cleanup. -/
inductive VEvent where
  | frame (t : ℕ) (level : ℚ)
  | timerFire (t : ℕ)
  | teardown
  deriving Repr, DecidableEq

/-- Body of the part_004 `loop` animation-frame callback (lines 123–164):
update the EMA, then the rising-edge branch (guarded by
`speaking && !isUserSpeakingRef.current`), then the falling-edge branch
(guarded by `!speaking && isUserSpeakingRef.current`) which arms the
silence timer with deadline `now + SILENCE_MS` when none is armed. -/
def vadFrame (cfg : VadConfig) (t : ℕ) (level : ℚ) (s : VadState) : VadState :=
  let ema := cfg.alpha * level + (1 - cfg.alpha) * s.ema
  let speaking : Bool := decide (cfg.speakThr < ema)
  let s1 :=
    if speaking && !s.isSpeaking then
      { s with ema := ema, isSpeaking := true, speakStart := some t, timer := none }
    else
      { s with ema := ema }
  if !speaking && s1.isSpeaking then
    if s1.timer = none then { s1 with timer := some (t + cfg.silenceMs) } else s1
  else s1

/-- Body of the part_004 silence-timeout callback (lines 140–159).  The
source reads `const sinceLastEoS = lastEosRef.current ? now -
lastEosRef.current : Infinity`, so a stored value of `0` is falsy and
also yields `Infinity`; the embedding reproduces that truthiness test
verbatim. -/
def vadTimerCb (cfg : VadConfig) (now : ℕ) (s : VadState) : VadState :=
  let started : ℕ := s.speakStart.getD now
  let spokeFor : ℤ := (now : ℤ) - (started : ℤ)
  let sinceOk : Bool :=
    match s.lastEos with
    | none => true
    | some l => if l = 0 then true else decide ((cfg.refractMs : ℤ) ≤ (now : ℤ) - (l : ℤ))
  let s1 :=
    if (cfg.minSpeakMs : ℤ) ≤ spokeFor ∧ sinceOk = true then
      { s with emitted := s.emitted ++ [now], lastEos := some now }
    else s
  { s1 with isSpeaking := false, speakStart := none, timer := none }

/-- One scheduler step of the part_004 detector.  After the cleanup ran,
`cancelAnimationFrame` stops the frame loop, and `clearTimeout` (modelled
by `timer = none`) prevents the timeout callback, so both kinds of
events become no-ops.  A `timerFire` only has an effect when the armed
timer's deadline matches. -/
def vadStep (cfg : VadConfig) (s : VadState) : VEvent → VadState
  | VEvent.frame t level => if s.destroyed then s else vadFrame cfg t level s
  | VEvent.timerFire t => if s.timer = some t then vadTimerCb cfg t s else s
  | VEvent.teardown => { s with destroyed := true, timer := none }

def vadRun (cfg : VadConfig) (es : List VEvent) : VadState :=
  es.foldl (vadStep cfg) vadInit

/-! ### Detector of the first revision in `conversation-latency-vad.tsx`

The first revision (lines 25–227 of that file) thresholds the raw frame
average directly (`const speaking = avg > 3`, no EMA), marks the end of
speech by `setUserEndTime(Date.now())` inside a 400 ms silence timeout,
and its effect cleanup (lines 104–107) runs `cancelAnimationFrame(raf)`
and `ctx.close()` only — it does not clear `silenceTimerRef`.  Its
rising edge calls `clearTimeout(silenceTimerRef.current)` without
nulling the ref, so the embedded state keeps the stored ref (`timerRef`)
separate from the actually scheduled, uncancelled timeout (`pending`). -/

structure Vad0State where
  isUserSpeaking : Bool
  timerRef : Option ℕ
  pending : Option ℕ
  userEndTime : Option ℕ
  emitted : List ℕ
  destroyed : Bool
  deriving Repr, DecidableEq

def vad0Init : Vad0State :=
  { isUserSpeaking := false, timerRef := none, pending := none,
    userEndTime := none, emitted := [], destroyed := false }

/-- Frame callback of the first revision (lines 75–97): `speaking = avg > 3`;
the rising edge sets the speaking flag and clears any scheduled timeout
(leaving `silenceTimerRef.current` set); the falling edge arms a 400 ms
timeout only when `silenceTimerRef.current` is null. -/
def vad0Frame (t : ℕ) (level : ℚ) (s : Vad0State) : Vad0State :=
  let speaking : Bool := decide ((3 : ℚ) < level)
  if speaking && !s.isUserSpeaking then
    { s with isUserSpeaking := true,
             pending := if s.timerRef = none then s.pending else none }
  else if !speaking && s.isUserSpeaking then
    if s.timerRef = none then
      { s with timerRef := some (t + 400), pending := some (t + 400) }
    else s
  else s

/-- One scheduler step of the first-revision detector.  The cleanup
(lines 104–107) only cancels the animation frame: `destroyed` stops
frame events, but `pending` is left as is, so an armed timeout still
fires at its deadline and records `userEndTime` — after teardown. -/
def vad0Step (s : Vad0State) : VEvent → Vad0State
  | VEvent.frame t level => if s.destroyed then s else vad0Frame t level s
  | VEvent.timerFire t =>
      if s.pending = some t then
        { s with isUserSpeaking := false, userEndTime := some t,
                 emitted := s.emitted ++ [t], pending := none }
      else s
  | VEvent.teardown => { s with destroyed := true }

def vad0Run (es : List VEvent) : Vad0State :=
  es.foldl vad0Step vad0Init

/-! ### Correlator and statistics, `src/unnamed/part_004`

The remote rising edge (`rloop`, lines 209–228) pairs the avatar's
start-of-speech with the most recent fresh local EoS marker and records
a latency measurement; `recordLatencyFromMarker` (lines 72–83) keeps the
history, the latest value and the running average. -/

structure CorrConfig where
  freshMinMs : ℕ
  freshMaxMs : ℕ
  staleMs : ℕ
  deriving Repr, DecidableEq

/-- part_004 constants: FRESH_MIN = 300, FRESH_MAX = 7000 (rloop lines
214–215) and the 10 s marker-retention horizon (lines 150 and 223). -/
def corrCfg404 : CorrConfig := { freshMinMs := 300, freshMaxMs := 7000, staleMs := 10000 }

/-- Constants of the agent-state revision: MIN_AGE = 250, MAX_AGE = 8000
(lines 393–394) and the 12 s retention horizon (lines 356 and 409). -/
def corrCfgAgentRev : CorrConfig := { freshMinMs := 250, freshMaxMs := 8000, staleMs := 12000 }

/-- Latency statistics: `history` is `latencyHistoryRef.current`,
`latest` and `average` are the `latestLatency` and `averageLatency`
states shown by the overlay. -/
structure LatencyStats where
  history : List ℤ
  latest : Option ℤ
  average : Option ℚ
  deriving Repr, DecidableEq

def statsInit : LatencyStats := { history := [], latest := none, average := none }

/-- JavaScript `arr.reduce((a, b) => a + b, 0)`. -/
def jsSum (l : List ℤ) : ℤ := l.foldl (· + ·) 0

/-- Embeds `recordLatencyFromMarker` (part_004 lines 72–83): push the
latency onto the history, publish it as the latest value, and publish
the average of the updated history.  The `now` argument is the
`Date.now()` read inside the function, which in the cooperative
single-tick model coincides with the pairing time. -/
def recordLatencyFromMarker (marker now : ℕ) (st : LatencyStats) : LatencyStats :=
  let latency : ℤ := (now : ℤ) - (marker : ℤ)
  let history := st.history ++ [latency]
  { history := history,
    latest := some latency,
    average := some ((jsSum history : ℚ) / (history.length : ℚ)) }

/-- Embeds the EoS-marker insertion done in the silence-timeout callback
(part_004 lines 148–150): `eosQueueRef.current.push(now)` followed by
`filter((t) => now - t <= 10_000)`. -/
def pushEos (cfg : CorrConfig) (now : ℕ) (q : List ℕ) : List ℕ :=
  (q ++ [now]).filter fun t => decide ((now : ℤ) - (t : ℤ) ≤ (cfg.staleMs : ℤ))

/-- Embeds `[...eosQueueRef.current].filter((t) => now - t >= FRESH_MIN
&& now - t <= FRESH_MAX)` (rloop lines 216–217). -/
def freshMarkers (cfg : CorrConfig) (now : ℕ) (q : List ℕ) : List ℕ :=
  q.filter fun t =>
    decide ((cfg.freshMinMs : ℤ) ≤ (now : ℤ) - (t : ℤ)) &&
    decide ((now : ℤ) - (t : ℤ) ≤ (cfg.freshMaxMs : ℤ))

/-- Descending insertion, mirroring the effect of
`Array.prototype.sort((a, b) => b - a)`. -/
def insertDesc (x : ℕ) : List ℕ → List ℕ
  | [] => [x]
  | y :: ys => if y ≤ x then x :: y :: ys else y :: insertDesc x ys

/-- Descending sort, mirroring `sort((a, b) => b - a)`. -/
def sortDesc : List ℕ → List ℕ
  | [] => []
  | x :: xs => insertDesc x (sortDesc xs)

/-- Embeds `...sort((a, b) => b - a)[0]` applied to the fresh markers
(rloop lines 216–218): the qualifying marker that is paired, if any. -/
def pickFresh (cfg : CorrConfig) (now : ℕ) (q : List ℕ) : Option ℕ :=
  (sortDesc (freshMarkers cfg now q)).head?

/-- Correlator state: the pending EoS-marker queue
(`eosQueueRef.current`), the remote speaking flag
(`remoteSpeakingRef.current`) and the statistics. -/
structure CorrState where
  eosQueue : List ℕ
  remoteSpeaking : Bool
  stats : LatencyStats
  deriving Repr, DecidableEq

def corrInit : CorrState := { eosQueue := [], remoteSpeaking := false, stats := statsInit }

/-- Embeds the remote rising-edge branch of `rloop` (part_004 lines
209–228): set the remote speaking flag and pick the most recent fresh
EoS marker.  The source then tests `if (fresh)` — a JavaScript
truthiness check, which passes only when a marker was found and its
timestamp is non-zero (a marker equal to `0` is falsy and is treated
like "no marker": nothing is recorded and nothing is pruned).  When the
check passes, the measurement is recorded and used plus stale markers
are dropped (`filter((t) => t > fresh && now - t <= 10_000)`, line
223); otherwise the queue and the statistics are untouched. -/
def remoteRising (cfg : CorrConfig) (now : ℕ) (s : CorrState) : CorrState :=
  let s0 := { s with remoteSpeaking := true }
  match pickFresh cfg now s0.eosQueue with
  | some fresh =>
      if fresh = 0 then s0
      else
        { s0 with
          stats := recordLatencyFromMarker fresh now s0.stats,
          eosQueue := s0.eosQueue.filter fun t =>
            decide (fresh < t) && decide ((now : ℤ) - (t : ℤ) ≤ (cfg.staleMs : ℤ)) }
  | none => s0

/-- Correlator events: an accepted local EoS marker pushed at time `t`
(the detector's silence-timeout callback reaching line 148), and a
remote start-of-speech rising edge at time `t` (the
`speaking && !remoteSpeakingRef.current` branch of `rloop`). -/
inductive CEvent where
  | localEos (t : ℕ)
  | remoteStart (t : ℕ)
  deriving Repr, DecidableEq

def corrStep (cfg : CorrConfig) (s : CorrState) : CEvent → CorrState
  | CEvent.localEos t => { s with eosQueue := pushEos cfg t s.eosQueue }
  | CEvent.remoteStart t => remoteRising cfg t s

def corrRun (cfg : CorrConfig) (es : List CEvent) : CorrState :=
  es.foldl (corrStep cfg) corrInit

/-- Measurement produced by one event in a given state: a remote rising
edge whose picked fresh marker passes the source's `if (fresh)`
truthiness guard (found and non-zero) yields one latency value,
everything else yields none. -/
def eventMeas (cfg : CorrConfig) (s : CorrState) : CEvent → List ℤ
  | CEvent.localEos _ => []
  | CEvent.remoteStart t =>
      match pickFresh cfg t s.eosQueue with
      | some fresh => if fresh = 0 then [] else [(t : ℤ) - (fresh : ℤ)]
      | none => []

/-- Chronological list of all measurements produced while folding the
events from state `s`. -/
def runMeasFrom (cfg : CorrConfig) : CorrState → List CEvent → List ℤ
  | _, [] => []
  | s, e :: es => eventMeas cfg s e ++ runMeasFrom cfg (corrStep cfg s e) es

def runMeas (cfg : CorrConfig) (es : List CEvent) : List ℤ :=
  runMeasFrom cfg corrInit es

/-- Arithmetic mean of a list of integers, as the specification words
it ("average equals the arithmetic mean of the whole history"). -/
def listMean (l : List ℤ) : ℚ := ((l.sum : ℚ) / (l.length : ℚ))

/-- Statistics invariant: the latest value is the last history entry and
the average is the mean of the history exactly when the history is
non-empty. -/
def StatsInv (st : LatencyStats) : Prop :=
  st.latest = st.history.getLast? ∧
  st.average = if st.history = [] then none else some (listMean st.history)

/-- Detector invariant for the part_004 local loop: the emitted EoS
timestamps are refractory-spaced, `lastEos` holds the most recent (and
positive) emitted timestamp, nothing has been emitted before the first
EoS, and an armed silence timer's deadline is at least `SILENCE_MS`. -/
def VadInv (cfg : VadConfig) (s : VadState) : Prop :=
  s.emitted.Pairwise (fun a b => a + cfg.refractMs ≤ b) ∧
  (∀ l, s.lastEos = some l → 0 < l ∧ ∀ a ∈ s.emitted, a ≤ l) ∧
  (s.lastEos = none → s.emitted = []) ∧
  (∀ d, s.timer = some d → cfg.silenceMs ≤ d)

/-! ### Helper lemmas about the descending sort -/

theorem insertDesc_ne_nil (x : ℕ) (l : List ℕ) : insertDesc x l ≠ [] := by
  cases l with
  | nil => simp [insertDesc]
  | cons y ys =>
      by_cases h : y ≤ x <;> simp [insertDesc, h]

theorem sortDesc_eq_nil (l : List ℕ) (h : sortDesc l = []) : l = [] := by
  cases l with
  | nil => rfl
  | cons x xs => exact absurd h (insertDesc_ne_nil x (sortDesc xs))

/-- The head of the descending sort is a maximum of the list: it belongs
to the list and dominates every element. -/
theorem sortDesc_head_max :
    ∀ (l : List ℕ) (m : ℕ), (sortDesc l).head? = some m → m ∈ l ∧ ∀ x ∈ l, x ≤ m := by
  intro l
  induction l with
  | nil => intro m hm; simp [sortDesc] at hm
  | cons x xs ih =>
      intro m hm
      rw [sortDesc] at hm
      cases hsx : sortDesc xs with
      | nil =>
          have hxs : xs = [] := sortDesc_eq_nil xs hsx
          rw [hsx] at hm
          simp [insertDesc] at hm
          subst hm
          simp [hxs]
      | cons y ys =>
          rw [hsx] at hm
          have hy : y ∈ xs ∧ ∀ z ∈ xs, z ≤ y := by
            apply ih
            rw [hsx]; rfl
          by_cases hle : y ≤ x
          · simp [insertDesc, hle] at hm
            subst hm
            refine ⟨List.mem_cons_self _ _, ?_⟩
            intro z hz
            rcases List.mem_cons.mp hz with hz | hz
            · exact le_of_eq hz
            · exact le_trans (hy.2 z hz) hle
          · simp [insertDesc, hle] at hm
            subst hm
            refine ⟨List.mem_cons_of_mem _ hy.1, ?_⟩
            intro z hz
            rcases List.mem_cons.mp hz with hz | hz
            · subst hz; exact le_of_lt (lt_of_not_le hle)
            · exact hy.2 z hz

/-- Specification of the pairing pick: a picked marker is a pending
marker whose age lies in the qualifying window, and it is the most
recent (largest) such marker. -/
theorem pickFresh_spec (cfg : CorrConfig) (now : ℕ) (q : List ℕ) (m : ℕ)
    (h : pickFresh cfg now q = some m) :
    m ∈ q ∧
    (cfg.freshMinMs : ℤ) ≤ (now : ℤ) - (m : ℤ) ∧
    (now : ℤ) - (m : ℤ) ≤ (cfg.freshMaxMs : ℤ) ∧
    ∀ x ∈ freshMarkers cfg now q, x ≤ m := by
  have hmax := sortDesc_head_max (freshMarkers cfg now q) m h
  have hmem := hmax.1
  rw [freshMarkers, List.mem_filter] at hmem
  refine ⟨hmem.1, ?_, ?_, hmax.2⟩
  · have := hmem.2
    simp only [Bool.and_eq_true, decide_eq_true_eq] at this
    exact this.1
  · have := hmem.2
    simp only [Bool.and_eq_true, decide_eq_true_eq] at this
    exact this.2

/-! ### Helper lemmas about the statistics -/

theorem foldl_add_shift (l : List ℤ) : ∀ x : ℤ, l.foldl (· + ·) x = x + l.sum := by
  induction l with
  | nil => intro x; simp
  | cons a l ih =>
      intro x
      rw [List.foldl_cons, ih (x + a), List.sum_cons]
      ring

theorem jsSum_eq_sum (l : List ℤ) : jsSum l = l.sum := by
  rw [jsSum, foldl_add_shift]; ring

theorem statsInit_inv : StatsInv statsInit := by
  simp [StatsInv, statsInit]

theorem record_statsInv (marker now : ℕ) (st : LatencyStats) :
    StatsInv (recordLatencyFromMarker marker now st) := by
  unfold StatsInv recordLatencyFromMarker
  constructor
  · simp
  · simp [listMean, jsSum_eq_sum]

/-- One correlator step appends exactly the measurements of that event
to the history and preserves the statistics invariant. -/
theorem corrStep_hist (cfg : CorrConfig) (s : CorrState) (e : CEvent) :
    (corrStep cfg s e).stats.history = s.stats.history ++ eventMeas cfg s e ∧
    (StatsInv s.stats → StatsInv (corrStep cfg s e).stats) := by
  cases e with
  | localEos t => simp [corrStep, eventMeas]
  | remoteStart t =>
      rw [corrStep, remoteRising, eventMeas]
      cases hp : pickFresh cfg t s.eosQueue with
      | none => simp [hp]
      | some fresh =>
          simp only [hp]
          by_cases h0 : fresh = 0
          · simp [h0]
          · simp only [if_neg h0]
            constructor
            · simp [recordLatencyFromMarker]
            · intro _
              exact record_statsInv fresh t s.stats

/-- Folding the correlator over any event list appends exactly the
chronological measurement list to the history and preserves the
statistics invariant. -/
theorem corr_foldl_hist (cfg : CorrConfig) :
    ∀ (es : List CEvent) (s : CorrState),
      (List.foldl (corrStep cfg) s es).stats.history
          = s.stats.history ++ runMeasFrom cfg s es ∧
      (StatsInv s.stats → StatsInv (List.foldl (corrStep cfg) s es).stats) := by
  intro es
  induction es with
  | nil => intro s; simp [runMeasFrom]
  | cons e es ih =>
      intro s
      rw [List.foldl_cons, runMeasFrom]
      obtain ⟨hstep, hinv⟩ := corrStep_hist cfg s e
      obtain ⟨ihh, ihinv⟩ := ih (corrStep cfg s e)
      constructor
      · rw [ihh, hstep, List.append_assoc]
      · intro hI
        exact ihinv (hinv hI)

theorem corrRun_hist (cfg : CorrConfig) (es : List CEvent) :
    (corrRun cfg es).stats.history = runMeas cfg es ∧ StatsInv (corrRun cfg es).stats := by
  obtain ⟨h1, h2⟩ := corr_foldl_hist cfg es corrInit
  constructor
  · rw [corrRun, h1, runMeas]
    simp [corrInit, statsInit]
  · exact h2 statsInit_inv

/-! ### Helper lemmas about the part_004 detector -/

/-- A frame callback never emits, never touches `lastEos`, and either
disarms the timer, leaves it alone, or arms it for `t + SILENCE_MS`. -/
theorem vadFrame_fields (cfg : VadConfig) (t : ℕ) (level : ℚ) (s : VadState) :
    (vadFrame cfg t level s).emitted = s.emitted ∧
    (vadFrame cfg t level s).lastEos = s.lastEos ∧
    ((vadFrame cfg t level s).timer = none ∨ (vadFrame cfg t level s).timer = s.timer ∨
      (vadFrame cfg t level s).timer = some (t + cfg.silenceMs)) := by
  unfold vadFrame
  simp only []
  split <;> split <;> (try split) <;> simp

/-- The silence-timeout callback disarms the timer and either emits
nothing, or emits exactly one EoS at `now` with the minimum-speak gate
and the (truthiness-faithful) refractory gate satisfied. -/
theorem vadTimerCb_spec (cfg : VadConfig) (now : ℕ) (s : VadState) :
    (vadTimerCb cfg now s).timer = none ∧
    (((vadTimerCb cfg now s).emitted = s.emitted ∧
        (vadTimerCb cfg now s).lastEos = s.lastEos) ∨
      ((vadTimerCb cfg now s).emitted = s.emitted ++ [now] ∧
       (vadTimerCb cfg now s).lastEos = some now ∧
       (cfg.minSpeakMs : ℤ) ≤ (now : ℤ) - ((s.speakStart.getD now : ℕ) : ℤ) ∧
       (s.lastEos = none ∨ s.lastEos = some 0 ∨
         ∃ l, s.lastEos = some l ∧ (cfg.refractMs : ℤ) ≤ (now : ℤ) - (l : ℤ)))) := by
  unfold vadTimerCb
  simp only []
  split
  case isTrue h =>
    refine ⟨trivial, Or.inr ⟨rfl, rfl, h.1, ?_⟩⟩
    have hs := h.2
    cases hl : s.lastEos with
    | none => exact Or.inl rfl
    | some l =>
        rw [hl] at hs
        by_cases h0 : l = 0
        · subst h0
          exact Or.inr (Or.inl rfl)
        · simp only [if_neg h0, decide_eq_true_eq] at hs
          exact Or.inr (Or.inr ⟨l, rfl, hs⟩)
  case isFalse h => exact ⟨trivial, Or.inl ⟨rfl, rfl⟩⟩

theorem vadStep_inv (cfg : VadConfig) (hsil : 0 < cfg.silenceMs) (s : VadState)
    (h : VadInv cfg s) (e : VEvent) : VadInv cfg (vadStep cfg s e) := by
  obtain ⟨hp, hlast, hnil, htimer⟩ := h
  cases e with
  | frame t level =>
      rw [vadStep]
      by_cases hd : s.destroyed = true
      · rw [if_pos hd]; exact ⟨hp, hlast, hnil, htimer⟩
      · rw [if_neg hd]
        obtain ⟨he, hl, ht⟩ := vadFrame_fields cfg t level s
        refine ⟨he ▸ hp, ?_, ?_, ?_⟩
        · intro l h'
          rw [hl] at h'
          rw [he]
          exact hlast l h'
        · intro h'
          rw [hl] at h'
          rw [he]
          exact hnil h'
        · intro d hd'
          rcases ht with h1 | h1 | h1
          · rw [h1] at hd'; cases hd'
          · rw [h1] at hd'; exact htimer d hd'
          · rw [h1] at hd'
            injection hd' with hd''
            omega
  | timerFire t =>
      rw [vadStep]
      by_cases hmt : s.timer = some t
      · rw [if_pos hmt]
        have hts : cfg.silenceMs ≤ t := htimer t hmt
        obtain ⟨ht0, hcase⟩ := vadTimerCb_spec cfg t s
        rcases hcase with ⟨he, hl⟩ | ⟨he, hl, _hmin, hdisj⟩
        · refine ⟨he ▸ hp, ?_, ?_, ?_⟩
          · intro l h'
            rw [hl] at h'
            rw [he]
            exact hlast l h'
          · intro h'
            rw [hl] at h'
            rw [he]
            exact hnil h'
          · intro d hd'
            rw [ht0] at hd'; cases hd'
        · have hbound : ∀ a ∈ s.emitted, a + cfg.refractMs ≤ t ∧ a ≤ t := by
            rcases hdisj with hcase | hcase | ⟨l, hleq, href⟩
            · intro a ha
              rw [hnil hcase] at ha
              cases ha
            · exact absurd (hlast 0 hcase).1 (lt_irrefl 0)
            · intro a ha
              have hal : a ≤ l := (hlast l hleq).2 a ha
              constructor <;> omega
          refine ⟨?_, ?_, ?_, ?_⟩
          · rw [he]
            refine List.pairwise_append.mpr ⟨hp, List.pairwise_singleton _ _, ?_⟩
            intro a ha b hb
            rw [List.mem_singleton] at hb
            subst hb
            exact (hbound a ha).1
          · intro l h'
            rw [hl] at h'
            injection h' with h''
            subst h''
            refine ⟨by omega, ?_⟩
            intro a ha
            rw [he, List.mem_append, List.mem_singleton] at ha
            rcases ha with ha | ha
            · exact (hbound a ha).2
            · exact le_of_eq ha
          · intro h'
            rw [hl] at h'
            cases h'
          · intro d hd'
            rw [ht0] at hd'; cases hd'
      · rw [if_neg hmt]
        exact ⟨hp, hlast, hnil, htimer⟩
  | teardown =>
      rw [vadStep]
      refine ⟨hp, hlast, hnil, ?_⟩
      intro d hd'
      cases hd'

theorem vadFoldl_inv (cfg : VadConfig) (hsil : 0 < cfg.silenceMs) :
    ∀ (es : List VEvent) (s : VadState), VadInv cfg s →
      VadInv cfg (List.foldl (vadStep cfg) s es) := by
  intro es
  induction es with
  | nil => intro s h; exact h
  | cons e es ih =>
      intro s h
      rw [List.foldl_cons]
      exact ih (vadStep cfg s e) (vadStep_inv cfg hsil s h e)

theorem vadInit_inv (cfg : VadConfig) : VadInv cfg vadInit := by
  refine ⟨List.Pairwise.nil, ?_, fun _ => rfl, ?_⟩
  · intro l h; cases h
  · intro d h; cases h

theorem vadRun_inv (cfg : VadConfig) (hsil : 0 < cfg.silenceMs) (es : List VEvent) :
    VadInv cfg (vadRun cfg es) :=
  vadFoldl_inv cfg hsil es vadInit (vadInit_inv cfg)

/-- A step changes the emitted-EoS list only when it is the armed
silence timer firing, and then the minimum-speak and refractory gates
held. -/
theorem vadStep_emit_char (cfg : VadConfig) (s : VadState) (e : VEvent)
    (h : (vadStep cfg s e).emitted ≠ s.emitted) :
    ∃ t, e = VEvent.timerFire t ∧ s.timer = some t ∧
      (cfg.minSpeakMs : ℤ) ≤ (t : ℤ) - ((s.speakStart.getD t : ℕ) : ℤ) ∧
      (s.lastEos = none ∨ s.lastEos = some 0 ∨
        ∃ l, s.lastEos = some l ∧ (cfg.refractMs : ℤ) ≤ (t : ℤ) - (l : ℤ)) := by
  cases e with
  | frame t level =>
      exfalso
      apply h
      rw [vadStep]
      by_cases hd : s.destroyed = true
      · rw [if_pos hd]
      · rw [if_neg hd]
        exact (vadFrame_fields cfg t level s).1
  | timerFire t =>
      rw [vadStep] at h
      by_cases hmt : s.timer = some t
      · rw [if_pos hmt] at h
        obtain ⟨_, hcase⟩ := vadTimerCb_spec cfg t s
        rcases hcase with ⟨he, _⟩ | ⟨_, _, hmin, hdisj⟩
        · exact absurd he h
        · exact ⟨t, rfl, hmt, hmin, hdisj⟩
      · rw [if_neg hmt] at h
        exact absurd rfl h
  | teardown => exact absurd rfl h

/-- After the part_004 effect cleanup has run, the detector state is a
fixed point: the frame loop is cancelled and the silence timer is
cleared, so no event has any further effect. -/
theorem vadStep_destroyed (cfg : VadConfig) (s : VadState) (e : VEvent)
    (h1 : s.destroyed = true) (h2 : s.timer = none) : vadStep cfg s e = s := by
  cases e with
  | frame t level => rw [vadStep, if_pos h1]
  | timerFire t =>
      rw [vadStep, h2]
      simp
  | teardown =>
      rw [vadStep]
      cases s
      simp only at h1 h2
      subst h1
      subst h2
      rfl

/-- The part_004 detector never emits an EoS after its teardown: the
emitted list at the end of any run that continues past the teardown
equals the emitted list at the teardown. -/
theorem vad_teardown_frozen (cfg : VadConfig) (es tail : List VEvent) :
    (vadRun cfg (es ++ VEvent.teardown :: tail)).emitted
      = (vadRun cfg (es ++ [VEvent.teardown])).emitted := by
  have hfix : ∀ (l : List VEvent) (s : VadState), s.destroyed = true → s.timer = none →
      List.foldl (vadStep cfg) s l = s := by
    intro l
    induction l with
    | nil => intro s _ _; rfl
    | cons e l ih =>
        intro s h1 h2
        rw [List.foldl_cons, vadStep_destroyed cfg s e h1 h2]
        exact ih s h1 h2
  have key : vadRun cfg (es ++ VEvent.teardown :: tail)
      = vadRun cfg (es ++ [VEvent.teardown]) := by
    rw [vadRun, vadRun]
    have : es ++ VEvent.teardown :: tail = (es ++ [VEvent.teardown]) ++ tail := by simp
    rw [this, List.foldl_append]
    apply hfix
    · rw [List.foldl_append]
      rfl
    · rw [List.foldl_append]
      rfl
  rw [key]

/-! ### Helper lemmas about the correlator rising edge -/

theorem remoteRising_some (cfg : CorrConfig) (now : ℕ) (s : CorrState) (m : ℕ)
    (h : pickFresh cfg now s.eosQueue = some m) (h0 : m ≠ 0) :
    remoteRising cfg now s =
      { eosQueue := s.eosQueue.filter fun t =>
          decide (m < t) && decide ((now : ℤ) - (t : ℤ) ≤ (cfg.staleMs : ℤ)),
        remoteSpeaking := true,
        stats := recordLatencyFromMarker m now s.stats } := by
  rw [remoteRising]
  simp only []
  rw [h]
  dsimp only
  rw [if_neg h0]

theorem remoteRising_none (cfg : CorrConfig) (now : ℕ) (s : CorrState)
    (h : pickFresh cfg now s.eosQueue = none) :
    remoteRising cfg now s = { s with remoteSpeaking := true } := by
  rw [remoteRising]
  simp only []
  rw [h]

/-- A picked marker with timestamp 0 is falsy under the source's
`if (fresh)` guard: the rising edge records nothing and prunes
nothing. -/
theorem remoteRising_pick_zero (cfg : CorrConfig) (now : ℕ) (s : CorrState)
    (h : pickFresh cfg now s.eosQueue = some 0) :
    remoteRising cfg now s = { s with remoteSpeaking := true } := by
  rw [remoteRising]
  simp only []
  rw [h]
  dsimp only
  rw [if_pos rfl]

/-! ### Claim theorems -/

/-- C7: recording a LatencyMeasurement appends its value to the history,
sets the latest readout to that value, and sets the average to the
arithmetic mean of the whole updated history. -/
theorem c7_record_spec (marker now : ℕ) (st : LatencyStats) :
    (recordLatencyFromMarker marker now st).history
        = st.history ++ [(now : ℤ) - (marker : ℤ)] ∧
    (recordLatencyFromMarker marker now st).latest = some ((now : ℤ) - (marker : ℤ)) ∧
    (recordLatencyFromMarker marker now st).average
        = some (listMean (st.history ++ [(now : ℤ) - (marker : ℤ)])) := by
  refine ⟨rfl, rfl, ?_⟩
  rw [recordLatencyFromMarker]
  simp [listMean, jsSum_eq_sum]

/-- C8: the correlator core is total (every step is a Lean function, so
no input sequence can make it throw), and for every input sequence the
state in which no measurement has ever been produced is exactly the
state in which both readouts are null; since this holds for every
prefix of a run, both readouts stay null until the first measurement. -/
theorem c8_null_until_first (cfg : CorrConfig) (es : List CEvent) :
    ((corrRun cfg es).stats.latest = none ∧ (corrRun cfg es).stats.average = none)
      ↔ runMeas cfg es = [] := by
  obtain ⟨hh, hl, ha⟩ : _ ∧ _ ∧ _ :=
    ⟨(corrRun_hist cfg es).1, (corrRun_hist cfg es).2.1, (corrRun_hist cfg es).2.2⟩
  constructor
  · rintro ⟨-, h2⟩
    by_cases hemp : (corrRun cfg es).stats.history = []
    · rw [← hh]; exact hemp
    · rw [ha, if_neg hemp] at h2
      exact absurd h2 (Option.some_ne_none _)
  · intro h
    have hemp : (corrRun cfg es).stats.history = [] := hh.trans h
    constructor
    · rw [hl, hemp]; rfl
    · rw [ha, if_pos hemp]

/-- C10: the history is never capped or evicted within a session: after
a run producing `n` measurements the history is exactly the
chronological list of those `n` values, and the average is the mean of
all of them. -/
theorem c10_history_uncapped (cfg : CorrConfig) (es : List CEvent) :
    (corrRun cfg es).stats.history = runMeas cfg es ∧
    (corrRun cfg es).stats.history.length = (runMeas cfg es).length ∧
    (corrRun cfg es).stats.average
      = if runMeas cfg es = [] then none else some (listMean (runMeas cfg es)) := by
  obtain ⟨hh, hinv⟩ := corrRun_hist cfg es
  refine ⟨hh, by rw [hh], ?_⟩
  rw [hinv.2, hh]

/-- C9: when a remote `start` pairs with a pending marker — the picked
marker passes the `if (fresh)` truthiness guard, i.e. is non-zero,
which every actually recorded marker does since markers are `Date.now()`
readings taken when the silence timer fires — the correlator removes
the consumed marker and every marker with a smaller or equal timestamp,
so afterwards the pending collection holds only markers strictly newer
than the consumed one. -/
theorem c9_pairing_prunes_older (cfg : CorrConfig) (now : ℕ) (s : CorrState) (m : ℕ)
    (h : pickFresh cfg now s.eosQueue = some m) (h0 : m ≠ 0) :
    m ∉ (remoteRising cfg now s).eosQueue ∧
    (∀ x ∈ s.eosQueue, x ≤ m → x ∉ (remoteRising cfg now s).eosQueue) ∧
    (∀ t ∈ (remoteRising cfg now s).eosQueue, m < t) := by
  rw [remoteRising_some cfg now s m h h0]
  simp only [List.mem_filter, Bool.and_eq_true, decide_eq_true_eq]
  refine ⟨?_, ?_, ?_⟩
  · rintro ⟨-, hlt, -⟩
    exact lt_irrefl m hlt
  · rintro x - hxm ⟨-, hlt, -⟩
    omega
  · rintro t ⟨-, hlt, -⟩
    exact hlt

/-- C9 witness: at the concrete state with pending markers 1000, 2100
and 2300 and a remote start at 2400, the marker 2100 is picked (2300 is
too young) and afterwards only the strictly newer 2300 remains. -/
theorem c9_witness :
    pickFresh corrCfg404 2400 [1000, 2100, 2300] = some 2100 ∧
    (2100 : ℕ) ≠ 0 ∧
    (2100 ∉ (remoteRising corrCfg404 2400
        { eosQueue := [1000, 2100, 2300], remoteSpeaking := false,
          stats := statsInit }).eosQueue ∧
      (∀ x ∈ ([1000, 2100, 2300] : List ℕ), x ≤ 2100 →
        x ∉ (remoteRising corrCfg404 2400
          { eosQueue := [1000, 2100, 2300], remoteSpeaking := false,
            stats := statsInit }).eosQueue) ∧
      ∀ t ∈ (remoteRising corrCfg404 2400
          { eosQueue := [1000, 2100, 2300], remoteSpeaking := false,
            stats := statsInit }).eosQueue, 2100 < t) :=
  ⟨by decide, by decide,
    c9_pairing_prunes_older corrCfg404 2400
      { eosQueue := [1000, 2100, 2300], remoteSpeaking := false, stats := statsInit }
      2100 (by decide) (by decide)⟩

/-- C5 counterexample: the marker recorded at 1000 produces no
measurement and is long past the 10 s staleness horizon when the remote
start at 12001 is processed, yet it is still in the pending collection
afterwards — pruning is lazy, so "at all times every entry is younger
than the staleness horizon" and "is removed" fail as stated. -/
theorem c5_counterexample :
    (corrRun corrCfg404 [CEvent.localEos 1000, CEvent.remoteStart 12001]).eosQueue
        = [1000] ∧
    (corrCfg404.staleMs : ℤ) < (12001 : ℤ) - (1000 : ℤ) ∧
    (corrRun corrCfg404 [CEvent.localEos 1000, CEvent.remoteStart 12001]).stats.history
        = [] := by
  refine ⟨by decide, by decide, by decide⟩

/-- C5 (amended): pruning is lazy.  Whenever a marker is inserted, and
whenever a pairing succeeds (the picked marker passing the source's
`if (fresh)` truthiness guard, i.e. non-zero), every entry retained in
the collection is younger than the staleness horizon as of that event;
a marker is only ever consumed while its age lies inside the qualifying
window (whose maximum is below the horizon), and a lone marker older
than the window yields no measurement — but an unconsumed stale marker
may linger until the next insertion or successful pairing. -/
theorem c5_lazy_staleness (cfg : CorrConfig) :
    (∀ now q, ∀ t ∈ pushEos cfg now q, (now : ℤ) - (t : ℤ) ≤ (cfg.staleMs : ℤ)) ∧
    (∀ now (s : CorrState) (m : ℕ), pickFresh cfg now s.eosQueue = some m → m ≠ 0 →
        ∀ t ∈ (remoteRising cfg now s).eosQueue, (now : ℤ) - (t : ℤ) ≤ (cfg.staleMs : ℤ)) ∧
    (∀ now q (m : ℕ), pickFresh cfg now q = some m →
        (cfg.freshMinMs : ℤ) ≤ (now : ℤ) - (m : ℤ) ∧
          (now : ℤ) - (m : ℤ) ≤ (cfg.freshMaxMs : ℤ)) ∧
    (∀ (now t0 : ℕ) (s : CorrState), s.eosQueue = [t0] →
        (cfg.freshMaxMs : ℤ) < (now : ℤ) - (t0 : ℤ) →
        (remoteRising cfg now s).stats = s.stats) := by
  refine ⟨?_, ?_, ?_, ?_⟩
  · intro now q t ht
    rw [pushEos, List.mem_filter, decide_eq_true_eq] at ht
    exact ht.2
  · intro now s m h h0 t ht
    rw [remoteRising_some cfg now s m h h0] at ht
    simp only [List.mem_filter, Bool.and_eq_true, decide_eq_true_eq] at ht
    exact ht.2.2
  · intro now q m h
    obtain ⟨-, h1, h2, -⟩ := pickFresh_spec cfg now q m h
    exact ⟨h1, h2⟩
  · intro now t0 s hq hold
    have hfresh : freshMarkers cfg now s.eosQueue = [] := by
      rw [hq, freshMarkers]
      rw [List.filter_cons, List.filter_nil]
      have : decide ((now : ℤ) - (t0 : ℤ) ≤ (cfg.freshMaxMs : ℤ)) = false := by
        rw [decide_eq_false_iff_not]
        omega
      rw [this]
      simp
    have hpick : pickFresh cfg now s.eosQueue = none := by
      rw [pickFresh, hfresh]
      rfl
    rw [remoteRising_none cfg now s hpick]

/-- C5 witness for the amended statement: the consumed-only-fresh part
applied at a concrete queue and time. -/
theorem c5_witness :
    pickFresh corrCfg404 5000 [1000] = some 1000 ∧
    ((corrCfg404.freshMinMs : ℤ) ≤ (5000 : ℤ) - (1000 : ℤ) ∧
      (5000 : ℤ) - (1000 : ℤ) ≤ (corrCfg404.freshMaxMs : ℤ)) :=
  ⟨by decide, (c5_lazy_staleness corrCfg404).2.2.1 5000 [1000] 1000 (by decide)⟩

/-- C2: the claim fails on the code.  With the part_004 constants, a
rising edge at time 0 starts speech, a falling edge at 800 arms the
450 ms debounce timer (deadline 1250), loudness rises back above the
speaking threshold at 900 — before the timer fires — yet the timer is
still armed (the cancel in the rising-edge branch is unreachable while
`isUserSpeakingRef.current` is still true), and when it fires at 1250
an `end` edge is emitted for that falling edge. -/
theorem c2_micropause_emits_end :
    (vadRun cfgPart004 [VEvent.frame 0 16, VEvent.frame 800 0]).timer = some 1250 ∧
    cfgPart004.speakThr <
      (vadRun cfgPart004
        [VEvent.frame 0 16, VEvent.frame 800 0, VEvent.frame 900 16]).ema ∧
    (vadRun cfgPart004
        [VEvent.frame 0 16, VEvent.frame 800 0, VEvent.frame 900 16]).timer
      = some 1250 ∧
    (vadRun cfgPart004
        [VEvent.frame 0 16, VEvent.frame 800 0, VEvent.frame 900 16,
         VEvent.timerFire 1250]).emitted = [1250] := by
  refine ⟨?_, ?_, ?_, ?_⟩ <;>
    norm_num [vadRun, vadStep, vadFrame, vadTimerCb, vadInit, cfgPart004]

/-- C6: the claim fails on the first-revision detector in
`conversation-latency-vad.tsx`: its cleanup cancels only the animation
frame, so the silence timer armed at 500 (deadline 900) survives the
teardown at 600 and fires afterwards, recording the end-of-speech
marker `userEndTime = 900` after disposal — the "phantom end after
teardown" the specification calls a bug class. -/
theorem c6_phantom_end_after_teardown :
    (vad0Run [VEvent.frame 0 10, VEvent.frame 500 0, VEvent.teardown]).destroyed = true ∧
    (vad0Run [VEvent.frame 0 10, VEvent.frame 500 0, VEvent.teardown]).pending = some 900 ∧
    (vad0Run [VEvent.frame 0 10, VEvent.frame 500 0, VEvent.teardown,
        VEvent.timerFire 900]).emitted = [900] ∧
    (vad0Run [VEvent.frame 0 10, VEvent.frame 500 0, VEvent.teardown,
        VEvent.timerFire 900]).userEndTime = some 900 := by
  refine ⟨by decide, by decide, by decide, by decide⟩

/-- C1: a local `end` marker recorded at `t0` paired by a remote `start`
at `t1` inside the qualifying window, with no other pending markers,
produces exactly one measurement with value `t1 − t0`; the marker is
consumed, so any later remote `start` finds an empty pending collection
and produces no second measurement.  The hypothesis `0 < t0` reflects
that a recorded marker is the `Date.now()` reading taken when the
silence timer fires, which is at least `SILENCE_MS > 0` (the detector
invariant `VadInv` proves every emitted EoS timestamp positive); a
zero marker would be falsy under the source's `if (fresh)` guard and
is unreachable. -/
theorem c1_pairing_once (cfg : CorrConfig) (t0 t1 : ℕ) (ht0 : 0 < t0)
    (hmin : (cfg.freshMinMs : ℤ) ≤ (t1 : ℤ) - (t0 : ℤ))
    (hmax : (t1 : ℤ) - (t0 : ℤ) ≤ (cfg.freshMaxMs : ℤ)) :
    (corrRun cfg [CEvent.localEos t0, CEvent.remoteStart t1]).stats.history
        = [(t1 : ℤ) - (t0 : ℤ)] ∧
    (corrRun cfg [CEvent.localEos t0, CEvent.remoteStart t1]).stats.latest
        = some ((t1 : ℤ) - (t0 : ℤ)) ∧
    (corrRun cfg [CEvent.localEos t0, CEvent.remoteStart t1]).eosQueue = [] ∧
    ∀ t2 : ℕ,
      (corrRun cfg [CEvent.localEos t0, CEvent.remoteStart t1,
          CEvent.remoteStart t2]).stats.history = [(t1 : ℤ) - (t0 : ℤ)] := by
  have hpush : pushEos cfg t0 [] = [t0] := by
    rw [pushEos]
    simp
  have hfresh : freshMarkers cfg t1 [t0] = [t0] := by
    rw [freshMarkers]
    simp only [List.filter_cons, List.filter_nil, Bool.and_eq_true, decide_eq_true_eq]
    rw [if_pos ⟨hmin, hmax⟩]
  have hpick : pickFresh cfg t1 [t0] = some t0 := by
    rw [pickFresh, hfresh]
    rfl
  have hstep1 : corrStep cfg corrInit (CEvent.localEos t0)
      = { eosQueue := [t0], remoteSpeaking := false, stats := statsInit } := by
    have h0 : corrStep cfg corrInit (CEvent.localEos t0)
        = { eosQueue := pushEos cfg t0 [], remoteSpeaking := false, stats := statsInit } := rfl
    rw [h0, hpush]
  have hrun2 : corrRun cfg [CEvent.localEos t0, CEvent.remoteStart t1]
      = remoteRising cfg t1 { eosQueue := [t0], remoteSpeaking := false, stats := statsInit } := by
    rw [corrRun]
    simp only [List.foldl_cons, List.foldl_nil]
    rw [hstep1]
    rfl
  have hrise : remoteRising cfg t1
        { eosQueue := [t0], remoteSpeaking := false, stats := statsInit }
      = { eosQueue := [], remoteSpeaking := true,
          stats := recordLatencyFromMarker t0 t1 statsInit } := by
    rw [remoteRising_some cfg t1 _ t0 hpick (by omega)]
    congr 1
    simp
  have hhist : (recordLatencyFromMarker t0 t1 statsInit).history
      = [(t1 : ℤ) - (t0 : ℤ)] := by
    simp [recordLatencyFromMarker, statsInit]
  refine ⟨?_, ?_, ?_, ?_⟩
  · rw [hrun2, hrise]
    exact hhist
  · rw [hrun2, hrise]
    rfl
  · rw [hrun2, hrise]
  · intro t2
    have hrun3 : corrRun cfg [CEvent.localEos t0, CEvent.remoteStart t1, CEvent.remoteStart t2]
        = corrStep cfg (corrRun cfg [CEvent.localEos t0, CEvent.remoteStart t1])
            (CEvent.remoteStart t2) := by
      rw [corrRun, corrRun]
      simp only [List.foldl_cons, List.foldl_nil]
    rw [hrun3, hrun2, hrise]
    have hpick2 : pickFresh cfg t2 ([] : List ℕ) = none := rfl
    have hstep3 : corrStep cfg
        { eosQueue := [], remoteSpeaking := true,
          stats := recordLatencyFromMarker t0 t1 statsInit } (CEvent.remoteStart t2)
        = remoteRising cfg t2
          { eosQueue := [], remoteSpeaking := true,
            stats := recordLatencyFromMarker t0 t1 statsInit } := rfl
    rw [hstep3, remoteRising_none cfg t2 _ hpick2]
    exact hhist

/-- C1 witness: with the part_004 window, a marker at 1000 and a remote
start at 2000 (gap 1000 ms) produce exactly the measurement 1000, the
queue is emptied, and a second remote start adds nothing. -/
theorem c1_witness :
    (0 < (1000 : ℕ) ∧
      (corrCfg404.freshMinMs : ℤ) ≤ (2000 : ℤ) - (1000 : ℤ) ∧
      (2000 : ℤ) - (1000 : ℤ) ≤ (corrCfg404.freshMaxMs : ℤ)) ∧
    ((corrRun corrCfg404 [CEvent.localEos 1000, CEvent.remoteStart 2000]).stats.history
        = [(2000 : ℤ) - (1000 : ℤ)] ∧
      (corrRun corrCfg404 [CEvent.localEos 1000, CEvent.remoteStart 2000]).stats.latest
        = some ((2000 : ℤ) - (1000 : ℤ)) ∧
      (corrRun corrCfg404 [CEvent.localEos 1000, CEvent.remoteStart 2000]).eosQueue = [] ∧
      ∀ t2 : ℕ,
        (corrRun corrCfg404 [CEvent.localEos 1000, CEvent.remoteStart 2000,
            CEvent.remoteStart t2]).stats.history = [(2000 : ℤ) - (1000 : ℤ)]) :=
  ⟨⟨by decide, by decide, by decide⟩,
    c1_pairing_once corrCfg404 1000 2000 (by decide) (by decide) (by decide)⟩

/-- C4: when several pending markers qualify, the pairing picks the most
recent (largest timestamp); in particular with markers `t0` and
`t0 + 500` both qualifying against a remote start at `t1`, the
measurement is computed against `t0 + 500`. -/
theorem c4_tiebreak_most_recent (cfg : CorrConfig) (now : ℕ) (q : List ℕ)
    (t0 t1 : ℕ) (b : Bool) (st : LatencyStats)
    (h0min : (cfg.freshMinMs : ℤ) ≤ (t1 : ℤ) - (t0 : ℤ))
    (h0max : (t1 : ℤ) - (t0 : ℤ) ≤ (cfg.freshMaxMs : ℤ))
    (h1min : (cfg.freshMinMs : ℤ) ≤ (t1 : ℤ) - ((t0 : ℤ) + 500))
    (h1max : (t1 : ℤ) - ((t0 : ℤ) + 500) ≤ (cfg.freshMaxMs : ℤ)) :
    (∀ m : ℕ, pickFresh cfg now q = some m →
        m ∈ q ∧ ∀ x ∈ freshMarkers cfg now q, x ≤ m) ∧
    (remoteRising cfg t1
        { eosQueue := [t0, t0 + 500], remoteSpeaking := b, stats := st }).stats.history
      = st.history ++ [(t1 : ℤ) - ((t0 : ℤ) + 500)] := by
  constructor
  · intro m h
    obtain ⟨hm, -, -, hmax'⟩ := pickFresh_spec cfg now q m h
    exact ⟨hm, hmax'⟩
  · have h1min2 : (cfg.freshMinMs : ℤ) ≤ (t1 : ℤ) - ((t0 + 500 : ℕ) : ℤ) := by
      push_cast
      omega
    have h1max2 : (t1 : ℤ) - ((t0 + 500 : ℕ) : ℤ) ≤ (cfg.freshMaxMs : ℤ) := by
      push_cast
      omega
    have hfresh : freshMarkers cfg t1 [t0, t0 + 500] = [t0, t0 + 500] := by
      rw [freshMarkers]
      simp only [List.filter_cons, List.filter_nil, Bool.and_eq_true, decide_eq_true_eq]
      rw [if_pos ⟨h0min, h0max⟩, if_pos ⟨h1min2, h1max2⟩]
    have hsort : sortDesc [t0, t0 + 500] = [t0 + 500, t0] := by
      have h0 : sortDesc [t0, t0 + 500] = insertDesc t0 [t0 + 500] := rfl
      have h1 : insertDesc t0 [t0 + 500]
          = if t0 + 500 ≤ t0 then t0 :: (t0 + 500) :: []
            else (t0 + 500) :: insertDesc t0 [] := rfl
      rw [h0, h1, if_neg (by omega)]
      rfl
    have hpick : pickFresh cfg t1 [t0, t0 + 500] = some (t0 + 500) := by
      rw [pickFresh, hfresh, hsort]
      rfl
    rw [remoteRising_some cfg t1 _ (t0 + 500) hpick (by omega)]
    have hrec : (recordLatencyFromMarker (t0 + 500) t1 st).history
        = st.history ++ [(t1 : ℤ) - ((t0 + 500 : ℕ) : ℤ)] := rfl
    rw [hrec]
    push_cast
    ring_nf

/-- C4 witness: markers at 1000 and 1500 both qualify against a remote
start at 2000 under the part_004 window, and the measurement uses the
more recent marker 1500. -/
theorem c4_witness :
    ((corrCfg404.freshMinMs : ℤ) ≤ (2000 : ℤ) - (1000 : ℤ) ∧
      (2000 : ℤ) - (1000 : ℤ) ≤ (corrCfg404.freshMaxMs : ℤ) ∧
      (corrCfg404.freshMinMs : ℤ) ≤ (2000 : ℤ) - ((1000 : ℤ) + 500) ∧
      (2000 : ℤ) - ((1000 : ℤ) + 500) ≤ (corrCfg404.freshMaxMs : ℤ)) ∧
    ((∀ m : ℕ, pickFresh corrCfg404 2000 [1000, 1500] = some m →
        m ∈ ([1000, 1500] : List ℕ) ∧
          ∀ x ∈ freshMarkers corrCfg404 2000 [1000, 1500], x ≤ m) ∧
      (remoteRising corrCfg404 2000
          { eosQueue := [1000, 1000 + 500], remoteSpeaking := false,
            stats := statsInit }).stats.history
        = statsInit.history ++ [(2000 : ℤ) - ((1000 : ℤ) + 500)]) :=
  ⟨⟨by decide, by decide, by decide, by decide⟩,
    c4_tiebreak_most_recent corrCfg404 2000 [1000, 1500] 1000 2000 false statsInit
      (by decide) (by decide) (by decide) (by decide)⟩

/-- C3: an `end` edge is emitted only by the armed debounce timer firing
with `spokeFor ≥ MIN_SPEAK_MS` and the refractory period elapsed since
the previous `end`, and consequently the emitted `end` timestamps of
every run are pairwise at least `REFRACTORY_MS` apart. -/
theorem c3_end_gating_refractory (cfg : VadConfig) (hsil : 0 < cfg.silenceMs)
    (es : List VEvent) :
    ((vadRun cfg es).emitted.Pairwise fun a b => a + cfg.refractMs ≤ b) ∧
    ∀ e : VEvent, (vadRun cfg (es ++ [e])).emitted ≠ (vadRun cfg es).emitted →
      ∃ t, e = VEvent.timerFire t ∧ (vadRun cfg es).timer = some t ∧
        (cfg.minSpeakMs : ℤ) ≤ (t : ℤ) - (((vadRun cfg es).speakStart.getD t : ℕ) : ℤ) ∧
        ((vadRun cfg es).lastEos = none ∨
          ∃ l, (vadRun cfg es).lastEos = some l ∧
            (cfg.refractMs : ℤ) ≤ (t : ℤ) - (l : ℤ)) := by
  obtain ⟨hp, hlast, hnil, htimer⟩ := vadRun_inv cfg hsil es
  refine ⟨hp, ?_⟩
  intro e h
  have happ : vadRun cfg (es ++ [e]) = vadStep cfg (vadRun cfg es) e := by
    rw [vadRun, vadRun, List.foldl_append, List.foldl_cons, List.foldl_nil]
  rw [happ] at h
  obtain ⟨t, het, hmt, hmin, hdisj⟩ := vadStep_emit_char cfg (vadRun cfg es) e h
  refine ⟨t, het, hmt, hmin, ?_⟩
  rcases hdisj with hc | hc | ⟨l, hleq, href⟩
  · exact Or.inl hc
  · exact absurd (hlast 0 hc).1 (lt_irrefl 0)
  · exact Or.inr ⟨l, hleq, href⟩

/-- C3 witness: the gating and refractory property applied to the
part_004 constants (SILENCE_MS = 450 > 0) at the empty run. -/
theorem c3_witness :
    0 < cfgPart004.silenceMs ∧
    (((vadRun cfgPart004 []).emitted.Pairwise
        fun a b => a + cfgPart004.refractMs ≤ b) ∧
      ∀ e : VEvent,
        (vadRun cfgPart004 ([] ++ [e])).emitted ≠ (vadRun cfgPart004 []).emitted →
        ∃ t, e = VEvent.timerFire t ∧ (vadRun cfgPart004 []).timer = some t ∧
          (cfgPart004.minSpeakMs : ℤ)
              ≤ (t : ℤ) - (((vadRun cfgPart004 []).speakStart.getD t : ℕ) : ℤ) ∧
          ((vadRun cfgPart004 []).lastEos = none ∨
            ∃ l, (vadRun cfgPart004 []).lastEos = some l ∧
              (cfgPart004.refractMs : ℤ) ≤ (t : ℤ) - (l : ℤ))) :=
  ⟨by decide, c3_end_gating_refractory cfgPart004 (by decide) []⟩

end Avytrweb
